import Mathlib

/-
Verification development for the video batch downloader
(src/comQ_Batch_VIDS_downloader.py).

The script's core is embedded shallowly:
- sanitize_filename (lines 110-135), together with the fragments of the
  Python standard library it calls (urllib.parse.urlsplit, parse_qs,
  os.path.basename, os.path.splitext), is translated to pure functions
  over lists of characters;
- download_video (lines 138-186) becomes a state-passing function over a
  model of the download directory, with the HTTP response supplied as data
  and Python exceptions made explicit in the result type;
- download_videos_concurrently (lines 203-214) becomes a fold over the
  task list that mirrors how executor.map re-raises a stored exception
  when the result iterator reaches it, plus a small-step pool model for
  the bounded-concurrency property of ThreadPoolExecutor(max_workers=5).

Strings are processed as List Char; a wrapper converts String at the API.
-/

namespace Vids

/- ===== Character helpers ===== -/

/-- WHATWG C0 control characters and space (code points 0x00 to 0x20);
urllib.parse.urlsplit strips these from the left of the URL. -/
def c0ControlOrSpace (c : Char) : Bool := c.toNat ≤ 32

/-- The bytes urlsplit removes everywhere in the URL: tab, CR, LF. -/
def isTabCrLf (c : Char) : Bool := c == '\t' || c == '\r' || c == '\n'

/-- Characters allowed after the first character of a URL scheme
(urllib.parse.scheme_chars: ASCII letters, digits, plus, minus, dot). -/
def schemeCharOk (c : Char) : Bool :=
  c.isAlpha || c.isDigit || c == '+' || c == '-' || c == '.'

/- ===== Generic list-of-characters splitting helpers ===== -/

/-- Split around the first occurrence of a character; the delimiter itself
is dropped.  Models Python str.split(sep, 1) and str.find. -/
def breakAtFirst (sep : Char) : List Char → Option (List Char × List Char)
  | [] => none
  | x :: xs =>
    if x = sep then some ([], xs)
    else
      match breakAtFirst sep xs with
      | none => none
      | some (l, r) => some (x :: l, r)

/-- Split on every occurrence of a character; models Python str.split(sep)
(so the empty string yields one empty field). -/
def splitOnChar (sep : Char) : List Char → List (List Char)
  | [] => [[]]
  | c :: rest =>
    let r := splitOnChar sep rest
    if c = sep then [] :: r
    else
      match r with
      | [] => [[c]]
      | h :: t => (c :: h) :: t

/- ===== urllib.parse.urlsplit ===== -/

/-- The five components returned by urllib.parse.urlsplit. -/
structure UrlParts where
  scheme : List Char
  netloc : List Char
  path : List Char
  query : List Char
  fragment : List Char
deriving DecidableEq

/-- Scheme recognition of urlsplit: the text before the first colon is a
scheme when it is nonempty, starts with an ASCII letter and consists of
scheme characters; it is then lowercased and removed from the URL. -/
def splitScheme (url : List Char) : List Char × List Char :=
  match breakAtFirst ':' url with
  | none => ([], url)
  | some (pre, post) =>
    match pre with
    | [] => ([], url)
    | c0 :: rest =>
      if c0.isAlpha && rest.all schemeCharOk then
        ((c0 :: rest).map Char.toLower, post)
      else ([], url)

/-- Netloc extraction of urlsplit (_splitnetloc): when the remainder starts
with two slashes, the netloc runs until the next slash, question mark or
hash; the returned remainder keeps that delimiter. -/
def splitNetloc (url : List Char) : List Char × List Char :=
  match url with
  | '/' :: '/' :: rest =>
    (rest.takeWhile (fun c => !(c == '/') && !(c == '?') && !(c == '#')),
     rest.dropWhile (fun c => !(c == '/') && !(c == '?') && !(c == '#')))
  | _ => ([], url)

/-- Model of urllib.parse.urlsplit (CPython, current behaviour): left-strip
C0 controls and space, delete tab, CR and LF, then split off scheme,
netloc, fragment (at the first hash) and query (at the first question
mark, after the fragment was removed).  The netloc bracket validation and
the NFKC check, which only raise on exotic inputs, are not modelled. -/
def urlsplit (url : List Char) : UrlParts :=
  let u1 := url.dropWhile c0ControlOrSpace
  let u2 := u1.filter (fun c => !(isTabCrLf c))
  let sp := splitScheme u2
  let np := splitNetloc sp.2
  let fp :=
    match breakAtFirst '#' np.2 with
    | none => (np.2, ([] : List Char))
    | some p => p
  let qp :=
    match breakAtFirst '?' fp.1 with
    | none => (fp.1, ([] : List Char))
    | some p => p
  ⟨sp.1, np.1, qp.1, qp.2, fp.2⟩

/- ===== urllib.parse.parse_qs ===== -/

/-- Value of a hexadecimal digit character, if it is one. -/
def hexVal (c : Char) : Option Nat :=
  if 48 ≤ c.toNat && c.toNat ≤ 57 then some (c.toNat - 48)
  else if 97 ≤ c.toNat && c.toNat ≤ 102 then some (c.toNat - 87)
  else if 65 ≤ c.toNat && c.toNat ≤ 70 then some (c.toNat - 55)
  else none

/-- Percent-decoding of urllib.parse.unquote: a percent sign followed by
two hexadecimal digits becomes the encoded byte, an invalid escape is kept
literally.  Decoded bytes are mapped to the character of the same code
point; the UTF-8 recombination Python applies to consecutive decoded
bytes at or above 0x80 is not modelled (every input relevant here decodes
to ASCII, where the two agree). -/
def percentDecode : List Char → List Char
  | [] => []
  | '%' :: a :: b :: rest =>
    match hexVal a, hexVal b with
    | some x, some y => Char.ofNat (16 * x + y) :: percentDecode rest
    | _, _ => '%' :: percentDecode (a :: b :: rest)
  | c :: rest => c :: percentDecode rest

/-- unquote after replacing plus signs by spaces, as parse_qsl does to
each field name and value. -/
def unquote_plus (xs : List Char) : List Char :=
  percentDecode (xs.map (fun c => if c = '+' then ' ' else c))

/-- Model of urllib.parse.parse_qsl with its defaults (separator is the
ampersand, keep_blank_values false, strict_parsing false): empty fields,
fields without an equals sign and fields with an empty value are dropped;
names and values are plus-and-percent decoded.  parse_qs groups this list
into a dict; order of first occurrence is preserved. -/
def parse_qsl (qs : List Char) : List (List Char × List Char) :=
  (splitOnChar '&' qs).foldr
    (fun nv acc =>
      match nv with
      | [] => acc
      | _ =>
        match breakAtFirst '=' nv with
        | none => acc
        | some (n, v) =>
          if v = [] then acc else (unquote_plus n, unquote_plus v) :: acc)
    []

/-- First value stored under a key, as query_params[k][0] reads it from
the dict built by parse_qs. -/
def qsLookup (k : List Char) : List (List Char × List Char) → Option (List Char)
  | [] => none
  | (n, v) :: rest => if n = k then some v else qsLookup k rest

/- ===== os.path helpers (posixpath) ===== -/

/-- posixpath.basename: everything after the last slash. -/
def basenameL (p : List Char) : List Char :=
  ((p.reverse.takeWhile (fun c => !(c == '/'))).reverse)

/-- Index of the last occurrence of a character, as str.rfind. -/
def rlastIdx (c : Char) : List Char → Option Nat
  | [] => none
  | x :: xs =>
    match rlastIdx c xs with
    | some i => some (i + 1)
    | none => if x = c then some 0 else none

/-- posixpath.splitext: split at the last dot when it lies after the last
slash and some non-dot character stands between them (so names consisting
only of leading dots have no extension). -/
def splitextL (p : List Char) : List Char × List Char :=
  match rlastIdx '.' p with
  | none => (p, [])
  | some d =>
    let fi := match rlastIdx '/' p with
      | none => 0
      | some s => s + 1
    if fi ≤ d then
      if ((p.drop fi).take (d - fi)).any (fun c => !(c == '.')) then
        (p.take d, p.drop d)
      else (p, [])
    else (p, [])

/- ===== sanitize_filename (source lines 110-135) ===== -/

/-- The characters replaced by the regular expression at source line 131. -/
def forbiddenChar (c : Char) : Bool :=
  c == '<' || c == '>' || c == ':' || c == '"' || c == '/' ||
  c == '\\' || c == '|' || c == '?' || c == '*'

/-- filename.replace at source line 128: one left-to-right pass deleting
each occurrence of the three characters percent, two, zero. -/
def stripPct20 : List Char → List Char
  | '%' :: '2' :: '0' :: rest => stripPct20 rest
  | c :: rest => c :: stripPct20 rest
  | [] => []

/-- re.sub at source line 131: every forbidden character becomes an
underscore. -/
def replaceForbidden (xs : List Char) : List Char :=
  xs.map (fun c => if forbiddenChar c then '_' else c)

/-- Lines 127-131: strip the literal percent-two-zero sequences, then
replace the forbidden characters. -/
def sanitizeHintL (xs : List Char) : List Char :=
  replaceForbidden (stripPct20 xs)

/-- Lines 113-122: the raw filename hint — the first value of the query
parameter f when present, otherwise the basename of the URL path. -/
def rawHintL (url : List Char) : List Char :=
  let u := urlsplit url
  match qsLookup ['f'] (parse_qsl u.query) with
  | some v => v
  | none => basenameL u.path

/-- sanitize_filename, source lines 110-135, over character lists. -/
def sanitize_filenameL (url : List Char) : List Char :=
  sanitizeHintL (rawHintL url)

/-- sanitize_filename at the String interface. -/
def sanitize_filename (url : String) : String :=
  ⟨sanitize_filenameL url.data⟩

/- ===== Decimal formatting of the collision counter ===== -/

/-- Decimal digit character. -/
def digitCharD (d : Nat) : Char := Char.ofNat (48 + d)

/-- Fuel-driven decimal formatter: peels digits from the right.  The fuel
is always at least the number of digits when called with fuel n on n. -/
def toDecimalAux : Nat → Nat → List Char → List Char
  | 0, n, acc => digitCharD (n % 10) :: acc
  | fuel + 1, n, acc =>
    if n < 10 then digitCharD n :: acc
    else toDecimalAux fuel (n / 10) (digitCharD (n % 10) :: acc)

/-- Standard decimal rendering of a natural number, as the Python
f-string renders the collision counter at source line 169. -/
def natDecimal (n : Nat) : List Char := toDecimalAux n n []

/-- Value of a digit string read left to right with accumulator; a left
inverse of natDecimal, used to prove the counter names pairwise
distinct. -/
def dsVal : Nat → List Char → Nat
  | m, [] => m
  | m, c :: cs => dsVal (m * 10 + (c.toNat - 48)) cs

/- ===== Collision probing (source lines 164-171) ===== -/

/-- The candidate name built by the loop body at line 169:
stem, underscore, counter, extension. -/
def candidateName (stem ext : List Char) (k : Nat) : List Char :=
  stem ++ '_' :: (natDecimal k ++ ext)

/-- The while loop at lines 168-171: starting from counter k, return the
first candidate name not present in the directory.  The loop in the
source is unbounded; fuel makes the model total, and the development
proves that the fuel used by resolveNameL never runs out. -/
def probeLoop (taken : List (List Char)) (stem ext : List Char) :
    Nat → Nat → Option (List Char)
  | 0, _ => none
  | fuel + 1, k =>
    let nm := candidateName stem ext k
    if nm ∈ taken then probeLoop taken stem ext fuel (k + 1) else some nm

/-- Lines 164-171: if the sanitized name is free, keep it; otherwise
split off the extension and probe stem_1.ext, stem_2.ext and so on.  The
directory is modelled by the list of names it contains; os.path.exists on
the joined path is membership of the name in that list. -/
def resolveNameL (taken : List (List Char)) (hint : List Char) :
    Option (List Char) :=
  if hint ∈ taken then
    probeLoop taken (splitextL hint).1 (splitextL hint).2 (taken.length + 1) 1
  else some hint

/- ===== The download model (source lines 138-214) ===== -/

/-- The two exception classes that matter to the source: anything under
requests.exceptions.RequestException, which the except clause at line 184
catches, and OSError from file output, which nothing catches. -/
inductive ExnKind
  | requestExn
  | osErr
deriving DecidableEq

/-- Outcome of running a piece of Python: a returned value, an exception
propagating out, or an infinite loop. -/
inductive PyResult (α : Type)
  | ret (a : α)
  | raised (e : ExnKind)
  | hang
deriving DecidableEq

/-- One event while streaming the body: a chunk of the given size arrives
and is written, or iter_content raises a requests exception, or the disk
write raises OSError. -/
inductive StreamEvent
  | chunk (size : Nat)
  | netFail
  | diskFail
deriving DecidableEq

/-- What the network returns for one URL: whether requests.get or
raise_for_status raises (connection failure or non-2xx status), the
Content-Type header (empty string when absent, as headers.get defaults),
and the body stream.  Content-Length only feeds the progress bar and is
not modelled. -/
structure FetchSpec where
  transportError : Bool
  contentType : String
  body : List StreamEvent

/-- The network environment: a response specification per URL. -/
abbrev World := String → FetchSpec

/-- The download directory: file names with the byte counts written to
them.  The directory itself always exists (line 140 creates it). -/
abbrev FS := List (String × Nat)

/-- Names present in the directory. -/
def fileNames (fs : FS) : List (List Char) := fs.map (fun e => e.1.data)

/-- Python substring membership, as the check at line 156. -/
def containsSub (needle : List Char) : List Char → Bool
  | [] => needle.isEmpty
  | c :: t => needle.isPrefixOf (c :: t) || containsSub needle t

/-- The chunk loop at lines 174-180: write chunks until the stream ends
or an event raises; returns the loop outcome and the bytes written so
far (the partially written file stays on disk either way). -/
def writeBody : List StreamEvent → Nat → PyResult Unit × Nat
  | [], n => (.ret (), n)
  | .chunk s :: rest, n => writeBody rest (n + s)
  | .netFail :: _, n => (.raised .requestExn, n)
  | .diskFail :: _, n => (.raised .osErr, n)

/-- The try block of download_video, lines 143-183: fetch (a transport
error or bad status raises a requests exception), check the Content-Type
for the substring video and return False when it is missing (before any
file is created), resolve the on-disk name, create the file and stream
the body into it, returning True on completion.  The hang alternative
records the case of the naming loop never finding a free name, which
cannot happen (proved below) but must be represented to keep the model
faithful to the unbounded while loop. -/
def download_videoTry (w : World) (fs : FS) (url : String) :
    PyResult Bool × FS :=
  let f := w url
  if f.transportError then (.raised .requestExn, fs)
  else if !(containsSub ("video".data) f.contentType.data) then
    (.ret false, fs)
  else
    match resolveNameL (fileNames fs) (sanitize_filenameL url.data) with
    | none => (.hang, fs)
    | some nm =>
      let wr := writeBody f.body 0
      (match wr.1 with
       | .ret _ => .ret true
       | .raised e => .raised e
       | .hang => .hang,
       (⟨nm⟩, wr.2) :: fs)

/-- download_video, lines 138-186: the try block with the except clause
at line 184, which catches exactly requests.exceptions.RequestException
and turns it into the return value False; any other exception (in
particular OSError from the file write) propagates to the caller. -/
def download_video (w : World) (fs : FS) (url : String) :
    PyResult Bool × FS :=
  match download_videoTry w fs url with
  | (.raised .requestExn, fs2) => (.ret false, fs2)
  | other => other

/-- The per-task return value, which does not depend on the directory
contents: the directory only influences the chosen file name, never
whether the download succeeds. -/
def taskOutcome (w : World) (url : String) : PyResult Bool :=
  let f := w url
  if f.transportError then .ret false
  else if !(containsSub ("video".data) f.contentType.data) then .ret false
  else
    match (writeBody f.body 0).1 with
    | .ret _ => .ret true
    | .raised .requestExn => .ret false
    | .raised .osErr => .raised .osErr
    | .hang => .hang

/-- A body stream with no disk-write failure. -/
def noDiskFail (evs : List StreamEvent) : Bool :=
  evs.all (fun e => !(e == .diskFail))

/-- The result loop of download_videos_concurrently, lines 208-212:
executor.map yields the per-task results in input order, re-raising a
stored exception when the iterator reaches the task that raised; the for
loop counts the True results and has no handler, so such an exception
aborts the count.  Success accounting is independent of how the worker
threads interleaved, because each return value depends only on that
task's response, so the order-preserving fold is a faithful model of the
aggregate. -/
def runBatch (w : World) : List String → FS → Nat → PyResult Nat × FS
  | [], fs, cnt => (.ret cnt, fs)
  | u :: rest, fs, cnt =>
    match download_video w fs u with
    | (.ret true, fs2) => runBatch w rest fs2 (cnt + 1)
    | (.ret false, fs2) => runBatch w rest fs2 cnt
    | (.raised e, fs2) => (.raised e, fs2)
    | (.hang, fs2) => (.hang, fs2)

/-- download_videos_concurrently, lines 203-214: run the batch and return
the number of tasks whose download returned True. -/
def download_videos_concurrently (w : World) (urls : List String) (fs : FS) :
    PyResult Nat × FS :=
  runBatch w urls fs 0

/- ===== Bounded worker pool (line 208) ===== -/

/-- The concurrency limit passed to ThreadPoolExecutor at line 208. -/
def max_workers : Nat := 5

/-- State of the worker pool: tasks not yet started, tasks currently
executing (holding a network connection), tasks finished. -/
structure PoolState where
  pending : List String
  running : List String
  done : List String
deriving DecidableEq

/-- Small-step semantics of ThreadPoolExecutor(max_workers) as configured
at line 208: a pending task may start only while fewer than max_workers
tasks are running; any running task may finish. -/
inductive PoolStep : PoolState → PoolState → Prop
  | start (u : String) (p r d : List String) :
      r.length < max_workers →
      PoolStep ⟨u :: p, r, d⟩ ⟨p, u :: r, d⟩
  | finish (u : String) (p r1 r2 d : List String) :
      PoolStep ⟨p, r1 ++ u :: r2, d⟩ ⟨p, r1 ++ r2, u :: d⟩

/-- Reflexive-transitive closure of pool steps. -/
inductive PoolReach : PoolState → PoolState → Prop
  | refl (s : PoolState) : PoolReach s s
  | step {s t u : PoolState} : PoolReach s t → PoolStep t u → PoolReach s u

/-- Initial pool state for a task list: nothing started. -/
def initPool (urls : List String) : PoolState := ⟨urls, [], []⟩

/- ===== Helper lemmas: the decimal counter ===== -/

/-- Code point of a digit character. -/
theorem digitCharD_toNat : ∀ d, d < 10 → (digitCharD d).toNat = 48 + d := by
  decide

/-- dsVal is a left fold, so it distributes over append. -/
theorem dsVal_append (m : Nat) (xs ys : List Char) :
    dsVal m (xs ++ ys) = dsVal (dsVal m xs) ys := by
  induction xs generalizing m with
  | nil => rfl
  | cons c cs ih => exact ih (m * 10 + (c.toNat - 48))

/-- Value of a one-digit block. -/
theorem dsVal_singleton (m : Nat) (c : Char) :
    dsVal m [c] = m * 10 + (c.toNat - 48) := rfl

/-- The formatter emits a digit block whose value recovers the number. -/
theorem toDecimalAux_spec (fuel : Nat) : ∀ n acc, n ≤ fuel →
    ∃ ds, toDecimalAux fuel n acc = ds ++ acc ∧
      ∀ m, dsVal m ds = m * 10 ^ ds.length + n := by
  induction fuel with
  | zero =>
    intro n acc h
    have hn : n = 0 := Nat.le_zero.mp h
    subst hn
    refine ⟨[digitCharD 0], by simp [toDecimalAux], ?_⟩
    intro m
    have h48 : (digitCharD 0).toNat = 48 := by decide
    rw [dsVal_singleton, h48, List.length_singleton, pow_one]
  | succ f ih =>
    intro n acc h
    by_cases hlt : n < 10
    · refine ⟨[digitCharD n], by simp [toDecimalAux, hlt], ?_⟩
      intro m
      have hd : (digitCharD n).toNat = 48 + n := digitCharD_toNat n hlt
      rw [dsVal_singleton, hd, List.length_singleton, pow_one]
      omega
    · have hdiv : n / 10 ≤ f := by
        have : n / 10 < n := Nat.div_lt_self (by omega) (by omega)
        omega
      obtain ⟨ds, heq, hval⟩ := ih (n / 10) (digitCharD (n % 10) :: acc) hdiv
      refine ⟨ds ++ [digitCharD (n % 10)], ?_, ?_⟩
      · simp [toDecimalAux, hlt, heq]
      · intro m
        have hd : (digitCharD (n % 10)).toNat = 48 + n % 10 :=
          digitCharD_toNat _ (Nat.mod_lt _ (by omega))
        rw [dsVal_append, hval, dsVal_singleton, hd]
        have hlen : (ds ++ [digitCharD (n % 10)]).length = ds.length + 1 := by
          simp
        rw [hlen, pow_succ, ← mul_assoc]
        generalize m * 10 ^ ds.length = Q
        omega

/-- Reading back the decimal rendering recovers the number. -/
theorem dsVal_natDecimal (n : Nat) : dsVal 0 (natDecimal n) = n := by
  obtain ⟨ds, heq, hval⟩ := toDecimalAux_spec n n [] (le_refl n)
  rw [List.append_nil] at heq
  rw [natDecimal, heq, hval]
  simp

/-- Distinct counters render to distinct digit strings. -/
theorem natDecimal_inj {i j : Nat} (h : natDecimal i = natDecimal j) :
    i = j := by
  have hi := dsVal_natDecimal i
  rw [h, dsVal_natDecimal] at hi
  omega

/-- Distinct counters give distinct candidate names. -/
theorem candidateName_inj (stem ext : List Char) {i j : Nat}
    (h : candidateName stem ext i = candidateName stem ext j) : i = j := by
  unfold candidateName at h
  have h1 := List.append_cancel_left h
  have h2 : natDecimal i ++ ext = natDecimal j ++ ext := by
    injection h1
  exact natDecimal_inj (List.append_cancel_right h2)

/-- Pigeonhole for the probing loop: any window of directory-size plus one
consecutive counters contains a counter whose candidate name is free. -/
theorem exists_free_candidate (taken : List (List Char))
    (stem ext : List Char) (k : Nat) :
    ∃ j, k ≤ j ∧ j < k + (taken.length + 1) ∧
      candidateName stem ext j ∉ taken := by
  by_contra hc
  push_neg at hc
  have hsub : ((List.range (taken.length + 1)).map
      (fun i => candidateName stem ext (k + i))) ⊆ taken := by
    intro x hx
    rw [List.mem_map] at hx
    obtain ⟨i, hi, hxeq⟩ := hx
    rw [List.mem_range] at hi
    exact hxeq ▸ hc (k + i) (Nat.le_add_right k i) (by omega)
  have hinj : Function.Injective (fun i => candidateName stem ext (k + i)) := by
    intro a b hab
    have := candidateName_inj stem ext hab
    omega
  have hnd : ((List.range (taken.length + 1)).map
      (fun i => candidateName stem ext (k + i))).Nodup :=
    (List.nodup_range _).map hinj
  have hle := (List.subperm_of_subset hnd hsub).length_le
  simp [List.length_map, List.length_range] at hle

/-- The probing loop only ever returns a name absent from the
directory. -/
theorem probeLoop_not_mem (taken : List (List Char)) (stem ext : List Char) :
    ∀ fuel k nm, probeLoop taken stem ext fuel k = some nm → nm ∉ taken := by
  intro fuel
  induction fuel with
  | zero => intro k nm h; exact absurd h (by simp [probeLoop])
  | succ f ih =>
    intro k nm h
    rw [probeLoop] at h
    by_cases hm : candidateName stem ext k ∈ taken
    · rw [if_pos hm] at h
      exact ih (k + 1) nm h
    · rw [if_neg hm] at h
      cases h
      exact hm

/-- With a free candidate inside the fuel window, the loop succeeds. -/
theorem probeLoop_some (taken : List (List Char)) (stem ext : List Char) :
    ∀ fuel k, (∃ j, k ≤ j ∧ j < k + fuel ∧ candidateName stem ext j ∉ taken) →
      ∃ nm, probeLoop taken stem ext fuel k = some nm := by
  intro fuel
  induction fuel with
  | zero =>
    intro k h
    obtain ⟨j, h1, h2, _⟩ := h
    omega
  | succ f ih =>
    intro k h
    obtain ⟨j, h1, h2, h3⟩ := h
    rw [probeLoop]
    by_cases hm : candidateName stem ext k ∈ taken
    · rw [if_pos hm]
      apply ih (k + 1)
      have hjk : j ≠ k := by
        intro hjeq
        exact h3 (hjeq ▸ hm)
      exact ⟨j, by omega, by omega, h3⟩
    · rw [if_neg hm]
      exact ⟨_, rfl⟩

/-- Name resolution always yields a name: the loop in the source always
terminates, within directory-size plus one probes. -/
theorem resolveNameL_total (taken : List (List Char)) (hint : List Char) :
    ∃ nm, resolveNameL taken hint = some nm := by
  rw [resolveNameL]
  by_cases hm : hint ∈ taken
  · rw [if_pos hm]
    exact probeLoop_some taken _ _ (taken.length + 1) 1
      (exists_free_candidate taken _ _ 1)
  · rw [if_neg hm]
    exact ⟨hint, rfl⟩

/-- The resolved name never collides with an existing file. -/
theorem resolveNameL_not_mem (taken : List (List Char)) (hint nm : List Char)
    (h : resolveNameL taken hint = some nm) : nm ∉ taken := by
  rw [resolveNameL] at h
  by_cases hm : hint ∈ taken
  · rw [if_pos hm] at h
    exact probeLoop_not_mem taken _ _ _ _ nm h
  · rw [if_neg hm] at h
    cases h
    exact hm

/- ===== Helper lemmas: the download and the batch ===== -/

/-- The chunk loop finishes or raises; it never loops forever. -/
theorem writeBody_cases (evs : List StreamEvent) :
    ∀ n, (writeBody evs n).1 = PyResult.ret () ∨
      (writeBody evs n).1 = PyResult.raised ExnKind.requestExn ∨
      (writeBody evs n).1 = PyResult.raised ExnKind.osErr := by
  induction evs with
  | nil => intro n; left; rfl
  | cons e rest ih =>
    intro n
    cases e with
    | chunk s => exact ih (n + s)
    | netFail => right; left; rfl
    | diskFail => right; right; rfl

/-- Without a disk-write failure the chunk loop finishes or raises a
requests exception only. -/
theorem writeBody_no_disk (evs : List StreamEvent) :
    noDiskFail evs = true → ∀ n,
      (writeBody evs n).1 = PyResult.ret () ∨
      (writeBody evs n).1 = PyResult.raised ExnKind.requestExn := by
  induction evs with
  | nil => intro _ n; left; rfl
  | cons e rest ih =>
    intro h n
    rw [noDiskFail, List.all_cons, Bool.and_eq_true] at h
    cases e with
    | chunk s => exact ih h.2 (n + s)
    | netFail => right; rfl
    | diskFail => simp at h

/-- The return value of download_video does not depend on the directory
contents: taskOutcome computes it from the response alone. -/
theorem download_video_fst (w : World) (fs : FS) (u : String) :
    (download_video w fs u).1 = taskOutcome w u := by
  rw [download_video, download_videoTry, taskOutcome]
  cases ht : (w u).transportError with
  | true => simp [ht]
  | false =>
    cases hct : containsSub ("video".data) ((w u).contentType.data) with
    | false => simp [ht, hct]
    | true =>
      obtain ⟨nm, hnm⟩ :=
        resolveNameL_total (fileNames fs) (sanitize_filenameL u.data)
      rcases hwr : writeBody (w u).body 0 with ⟨r, nb⟩
      simp only [ht, hct, hnm, hwr, Bool.not_true, Bool.false_eq_true,
        if_false, Bool.true_eq_false]
      rcases writeBody_cases (w u).body 0 with hc | hc | hc <;>
        rw [hwr] at hc <;> simp only at hc <;> subst hc <;> rfl

/-- The batch loop, when every task returns a boolean, returns the
accumulator plus the number of tasks returning True. -/
theorem runBatch_spec (w : World) :
    ∀ urls fs cnt, (∀ u ∈ urls, ∃ b, taskOutcome w u = PyResult.ret b) →
      (runBatch w urls fs cnt).1 =
        PyResult.ret
          (cnt + urls.countP (fun u => taskOutcome w u == PyResult.ret true)) := by
  intro urls
  induction urls with
  | nil =>
    intro fs cnt h
    simp [runBatch]
  | cons u rest ih =>
    intro fs cnt h
    obtain ⟨b, hb⟩ := h u (List.mem_cons_self u rest)
    have hrest : ∀ v ∈ rest, ∃ c, taskOutcome w v = PyResult.ret c :=
      fun v hv => h v (List.mem_cons_of_mem u hv)
    rcases hdv : download_video w fs u with ⟨r, fs2⟩
    have hr : r = taskOutcome w u := by
      have hfst := download_video_fst w fs u
      rw [hdv] at hfst
      exact hfst
    rw [runBatch, hdv, hr, hb, List.countP_cons, hb]
    cases b with
    | true =>
      show (runBatch w rest fs2 (cnt + 1)).1 = _
      rw [ih fs2 (cnt + 1) hrest]
      simp
      omega
    | false =>
      show (runBatch w rest fs2 cnt).1 = _
      rw [ih fs2 cnt hrest]
      simp

/-- A task whose body stream has no disk-write failure returns a boolean:
transport errors and mid-stream network errors are requests exceptions,
which the except clause turns into False. -/
theorem taskOutcome_ret_of_noDisk (w : World) (u : String)
    (h : noDiskFail (w u).body = true) :
    ∃ b, taskOutcome w u = PyResult.ret b := by
  rw [taskOutcome]
  cases ht : (w u).transportError with
  | true => exact ⟨false, by simp [ht]⟩
  | false =>
    cases hct : containsSub ("video".data) ((w u).contentType.data) with
    | false => exact ⟨false, by simp [ht, hct]⟩
    | true =>
      rcases writeBody_no_disk (w u).body h 0 with hw | hw
      · exact ⟨true, by simp [ht, hct, hw]⟩
      · exact ⟨false, by simp [ht, hct, hw]⟩

/- ===== Helper lemmas: the worker pool ===== -/

/-- A single pool step keeps the number of running tasks within the
worker limit. -/
theorem poolStep_bound {s t : PoolState} (h : PoolStep s t)
    (hs : s.running.length ≤ max_workers) :
    t.running.length ≤ max_workers := by
  cases h with
  | start u p r d hlt => simpa using hlt
  | finish u p r1 r2 d =>
    simp only [List.length_append, List.length_cons] at hs ⊢
    omega

/-- Every state reachable from a state within the limit stays within the
limit. -/
theorem poolReach_bound {s t : PoolState} (h : PoolReach s t)
    (hs : s.running.length ≤ max_workers) :
    t.running.length ≤ max_workers := by
  induction h with
  | refl => exact hs
  | step _ hstep ih => exact poolStep_bound hstep ih

/- ===== Helper lemmas: the filename hint ===== -/

/-- When the query carries an f parameter, the hint is its first value. -/
theorem rawHintL_of_f (url v : List Char)
    (h : qsLookup ['f'] (parse_qsl (urlsplit url).query) = some v) :
    rawHintL url = v := by
  simp only [rawHintL, h]

/-- Without an f parameter, the hint is the basename of the path. -/
theorem rawHintL_no_f (url : List Char)
    (h : qsLookup ['f'] (parse_qsl (urlsplit url).query) = none) :
    rawHintL url = basenameL (urlsplit url).path := by
  simp only [rawHintL, h]

/-- Claim C1 (amended): every requests-level error during a download is
contained within the task and reported as the return value False — both
a transport failure or bad status on fetch, and a network failure while
reading body chunks (the chunk loop raising a requests exception); and a
batch whose tasks raise no disk-write error always reaches a returned
count.  (The original claim also covered errors while writing chunks to
disk; those are OSError, which the except clause at line 184 does not
catch, see the counterexample.) -/
theorem claim1_error_containment :
    (∀ w fs u, (w u).transportError = true →
      download_video w fs u = (PyResult.ret false, fs))
    ∧ (∀ w fs u, (writeBody (w u).body 0).1 = PyResult.raised ExnKind.requestExn →
        (download_video w fs u).1 = PyResult.ret false)
    ∧ (∀ w fs urls, (∀ u ∈ urls, noDiskFail (w u).body = true) →
        ∃ n, (download_videos_concurrently w urls fs).1 = PyResult.ret n) := by
  refine ⟨?_, ?_, ?_⟩
  · intro w fs u h
    rw [download_video, download_videoTry]
    simp [h]
  · intro w fs u h
    rw [download_video, download_videoTry]
    cases ht : (w u).transportError with
    | true => simp [ht]
    | false =>
      cases hct : containsSub ("video".data) ((w u).contentType.data) with
      | false => simp [ht, hct]
      | true =>
        obtain ⟨nm, hnm⟩ :=
          resolveNameL_total (fileNames fs) (sanitize_filenameL u.data)
        rcases hwr : writeBody (w u).body 0 with ⟨r, nb⟩
        rw [hwr] at h
        simp only at h
        subst h
        simp [ht, hct, hnm, hwr]
  · intro w fs urls h
    have hret : ∀ u ∈ urls, ∃ b, taskOutcome w u = PyResult.ret b :=
      fun u hu => taskOutcome_ret_of_noDisk w u (h u hu)
    exact ⟨_, runBatch_spec w urls fs 0 hret⟩

/-- Witness for C1: a mid-stream network failure — the chunk loop raises
a requests exception — is contained and the task returns False, and a
two-task batch of such tasks still returns a count. -/
theorem claim1_witness :
    (writeBody (((fun _ => FetchSpec.mk false "video/mp4"
        [StreamEvent.netFail]) : World) "http://h/a.mp4").body 0).1
      = PyResult.raised ExnKind.requestExn
    ∧ (download_video (fun _ => FetchSpec.mk false "video/mp4"
        [StreamEvent.netFail]) [] "http://h/a.mp4").1 = PyResult.ret false
    ∧ ∃ n, (download_videos_concurrently (fun _ => FetchSpec.mk false
        "video/mp4" [StreamEvent.netFail])
        ["http://h/a.mp4", "http://h/b.mp4"] []).1 = PyResult.ret n :=
  ⟨by decide,
   claim1_error_containment.2.1 _ [] "http://h/a.mp4" (by decide),
   claim1_error_containment.2.2 _ [] ["http://h/a.mp4", "http://h/b.mp4"]
     (fun u hu => by decide)⟩

/-- Counterexample to C1 as stated: a disk I/O error while writing body
chunks (OSError) is not caught by the except clause at line 184; it
propagates out of download_video, and through the result iteration of
download_videos_concurrently, aborting the batch. -/
theorem claim1_counterexample :
    (download_video (fun _ => FetchSpec.mk false "video/mp4"
        [StreamEvent.diskFail]) [] "http://a/v.mp4").1
      = PyResult.raised ExnKind.osErr
    ∧ (download_videos_concurrently (fun _ => FetchSpec.mk false "video/mp4"
        [StreamEvent.diskFail]) ["http://a/v.mp4", "http://a/w.mp4"] []).1
      = PyResult.raised ExnKind.osErr :=
  ⟨by decide, by decide⟩

/-- Claim C2: a response whose Content-Type does not contain the
substring video makes download_video return False with the directory
unchanged — no file is created and no body byte is written, the check
happening between the headers arriving and any write. -/
theorem claim2_nonvideo_skip (w : World) (fs : FS) (u : String)
    (h1 : (w u).transportError = false)
    (h2 : containsSub ("video".data) ((w u).contentType.data) = false) :
    download_video w fs u = (PyResult.ret false, fs) := by
  rw [download_video, download_videoTry]
  simp [h1, h2]

/-- Witness for C2: a text/html response is skipped with no file
created. -/
theorem claim2_witness :
    containsSub ("video".data)
      ((((fun _ => FetchSpec.mk false "text/html" [StreamEvent.chunk 7]) :
        World) "http://h/p.mp4").contentType.data) = false
    ∧ download_video (fun _ => FetchSpec.mk false "text/html"
        [StreamEvent.chunk 7]) [] "http://h/p.mp4" = (PyResult.ret false, []) :=
  ⟨by decide,
   claim2_nonvideo_skip _ [] "http://h/p.mp4" (by decide) (by decide)⟩

/-- Claim C3: resolving video.mp4 against a directory containing
video.mp4 yields video_1.mp4, a third resolution yields video_2.mp4, and
in general the resolved name never coincides with an existing file, so
no existing file is ever overwritten. -/
theorem claim3_collision_suffixing :
    resolveNameL [("video.mp4".data)] ("video.mp4".data)
      = some ("video_1.mp4".data)
    ∧ resolveNameL [("video.mp4".data), ("video_1.mp4".data)]
        ("video.mp4".data) = some ("video_2.mp4".data)
    ∧ ∀ taken hint nm, resolveNameL taken hint = some nm → nm ∉ taken :=
  ⟨by decide, by decide, fun taken hint nm h => resolveNameL_not_mem taken hint nm h⟩

/-- Witness for C3: the resolved name video_1.mp4 is indeed not among
the existing files. -/
theorem claim3_witness :
    resolveNameL [("video.mp4".data)] ("video.mp4".data)
      = some ("video_1.mp4".data)
    ∧ ("video_1.mp4".data) ∉ [("video.mp4".data)] :=
  ⟨by decide,
   claim3_collision_suffixing.2.2 [("video.mp4".data)] ("video.mp4".data)
     ("video_1.mp4".data) (by decide)⟩

/-- Claim C4: sanitization first deletes literal percent-two-zero
sequences, then replaces each forbidden character by an underscore; the
hint my:clip?.mp4 becomes my_clip_.mp4, and no forbidden character ever
survives in the output. -/
theorem claim4_sanitization :
    sanitizeHintL ("my:clip?.mp4".data) = ("my_clip_.mp4".data)
    ∧ sanitizeHintL ("a%20b.mp4".data) = ("ab.mp4".data)
    ∧ (∀ xs, sanitizeHintL xs = replaceForbidden (stripPct20 xs))
    ∧ ∀ xs c, c ∈ sanitizeHintL xs → forbiddenChar c = false := by
  refine ⟨by decide, by decide, fun xs => rfl, ?_⟩
  intro xs c hc
  rw [sanitizeHintL, replaceForbidden, List.mem_map] at hc
  obtain ⟨c0, _hmem, hceq⟩ := hc
  cases hf : forbiddenChar c0 with
  | true =>
    rw [hf] at hceq
    simp at hceq
    subst hceq
    decide
  | false =>
    rw [hf] at hceq
    simp at hceq
    subst hceq
    exact hf

/-- Witness for C4: the character m survives sanitization and is not
forbidden. -/
theorem claim4_witness :
    ('m' ∈ sanitizeHintL ("my:clip?.mp4".data))
    ∧ forbiddenChar 'm' = false :=
  ⟨by decide, claim4_sanitization.2.2.2 ("my:clip?.mp4".data) 'm' (by decide)⟩

/-- Claim C5: a URL with a query parameter f resolves to that
parameter's first value (the concrete example yields clip.mp4,
whatever the path says), two URLs carrying the same f value resolve
identically, and a URL without an f parameter falls back to the last
path segment. -/
theorem claim5_query_param_precedence :
    sanitize_filename "http://x/get?f=clip.mp4&id=9" = "clip.mp4"
    ∧ (∀ url v, qsLookup ['f'] (parse_qsl (urlsplit url).query) = some v →
        sanitize_filenameL url = sanitizeHintL v)
    ∧ (∀ u1 u2 v, qsLookup ['f'] (parse_qsl (urlsplit u1).query) = some v →
        qsLookup ['f'] (parse_qsl (urlsplit u2).query) = some v →
        sanitize_filenameL u1 = sanitize_filenameL u2)
    ∧ (∀ url, qsLookup ['f'] (parse_qsl (urlsplit url).query) = none →
        sanitize_filenameL url = sanitizeHintL (basenameL (urlsplit url).path)) := by
  refine ⟨by decide, ?_, ?_, ?_⟩
  · intro url v h
    rw [sanitize_filenameL, rawHintL_of_f url v h]
  · intro u1 u2 v h1 h2
    rw [sanitize_filenameL, sanitize_filenameL, rawHintL_of_f u1 v h1,
      rawHintL_of_f u2 v h2]
  · intro url h
    rw [sanitize_filenameL, rawHintL_no_f url h]

/-- Witness for C5: the example URL does carry f equal to clip.mp4 and
resolves through the query-parameter branch. -/
theorem claim5_witness :
    qsLookup ['f']
      (parse_qsl (urlsplit ("http://x/get?f=clip.mp4&id=9".data)).query)
      = some ("clip.mp4".data)
    ∧ sanitize_filenameL ("http://x/get?f=clip.mp4&id=9".data)
      = sanitizeHintL ("clip.mp4".data) :=
  ⟨by decide,
   claim5_query_param_precedence.2.1 ("http://x/get?f=clip.mp4&id=9".data)
     ("clip.mp4".data) (by decide)⟩

/-- Claim C6 (amended): provided every task returns a boolean (no
uncaught exception escapes a task — see the counterexample for a disk
error breaking this), the coordinator attempts each task exactly once,
in one outcome per task, and returns the count of tasks whose download
returned True; that count never exceeds the length of the input list,
and the per-task outcome list has exactly the input length. -/
theorem claim6_summary_accounting (w : World) (fs : FS) (urls : List String)
    (h : ∀ u ∈ urls, ∃ b, taskOutcome w u = PyResult.ret b) :
    (download_videos_concurrently w urls fs).1 =
      PyResult.ret (urls.countP (fun u => taskOutcome w u == PyResult.ret true))
    ∧ urls.countP (fun u => taskOutcome w u == PyResult.ret true) ≤ urls.length
    ∧ (urls.map (fun u => taskOutcome w u)).length = urls.length := by
  refine ⟨?_, List.countP_le_length _, by simp⟩
  have h1 := runBatch_spec w urls fs 0 h
  rw [download_videos_concurrently]
  simpa using h1

/-- Witness for C6: a two-task batch of successful downloads returns the
count two. -/
theorem claim6_witness :
    (download_videos_concurrently (fun _ => FetchSpec.mk false "video/mp4"
        [StreamEvent.chunk 5]) ["http://h/a.mp4", "http://h/b.mp4"] []).1
      = PyResult.ret 2 := by
  have h6 := (claim6_summary_accounting
    (fun _ => FetchSpec.mk false "video/mp4" [StreamEvent.chunk 5]) []
    ["http://h/a.mp4", "http://h/b.mp4"] (fun u _ => ⟨true, rfl⟩)).1
  rw [h6]
  decide

/-- Counterexample to C6 as stated: with a task whose disk write fails,
the coordinator does not return a successful count at all — the OSError
propagates out of the result loop. -/
theorem claim6_counterexample :
    (download_videos_concurrently (fun _ => FetchSpec.mk false "video/mp4"
        [StreamEvent.diskFail]) ["http://a/v.mp4"] []).1
      = PyResult.raised ExnKind.osErr := by
  decide

/-- Claim C8: for every finite directory content, the disambiguation
search terminates — the model bounds the loop by the directory size plus
one probes and always returns a name. -/
theorem claim8_probe_termination :
    ∀ taken hint, (resolveNameL taken hint).isSome = true := by
  intro taken hint
  obtain ⟨nm, h⟩ := resolveNameL_total taken hint
  rw [h]
  rfl

/-- Claim C9: in every state the pool can reach from an initial task
list, at most max_workers (five, as configured at line 208) tasks are
running — holding an open network connection — simultaneously. -/
theorem claim9_bounded_concurrency (urls : List String) (s : PoolState)
    (h : PoolReach (initPool urls) s) :
    s.running.length ≤ max_workers := by
  apply poolReach_bound h
  exact Nat.zero_le _

/-- Witness for C9: after starting the first of two tasks, one task is
running, within the limit. -/
theorem claim9_witness :
    PoolReach (initPool ["http://a/1.mp4", "http://a/2.mp4"])
      (PoolState.mk ["http://a/2.mp4"] ["http://a/1.mp4"] [])
    ∧ (PoolState.mk ["http://a/2.mp4"] ["http://a/1.mp4"] []).running.length
      ≤ max_workers := by
  have hstep : PoolStep (initPool ["http://a/1.mp4", "http://a/2.mp4"])
      (PoolState.mk ["http://a/2.mp4"] ["http://a/1.mp4"] []) :=
    PoolStep.start "http://a/1.mp4" ["http://a/2.mp4"] [] [] (by decide)
  have hreach := PoolReach.step (PoolReach.refl _) hstep
  exact ⟨hreach, claim9_bounded_concurrency _ _ hreach⟩

/-- Claim C10: download_video reports both the non-video skip and the
fetch failure as the same boolean False, so the coordinator cannot
distinguish them, and a batch consisting of a skipped task yields the
count zero — a skip is counted exactly like a failure. -/
theorem claim10_skip_failure_conflation :
    (∀ w fs u, (w u).transportError = true →
      (download_video w fs u).1 = PyResult.ret false)
    ∧ (∀ w fs u, (w u).transportError = false →
        containsSub ("video".data) ((w u).contentType.data) = false →
        (download_video w fs u).1 = PyResult.ret false)
    ∧ (∀ w fs u, (w u).transportError = false →
        containsSub ("video".data) ((w u).contentType.data) = false →
        (download_videos_concurrently w [u] fs).1 = PyResult.ret 0) := by
  refine ⟨?_, ?_, ?_⟩
  · intro w fs u h
    rw [download_video, download_videoTry]
    simp [h]
  · intro w fs u h1 h2
    rw [download_video, download_videoTry]
    simp [h1, h2]
  · intro w fs u h1 h2
    have hdl : download_video w fs u = (PyResult.ret false, fs) := by
      rw [download_video, download_videoTry]
      simp [h1, h2]
    rw [download_videos_concurrently, runBatch, hdl]
    rfl

/-- Witness for C10: a failing fetch and a text/html response produce
the same return value False, and the batch of the skipped task counts
zero. -/
theorem claim10_witness :
    (download_video (fun _ => FetchSpec.mk true "" []) [] "http://h/a.mp4").1
      = PyResult.ret false
    ∧ (download_video (fun _ => FetchSpec.mk false "text/html" [])
        [] "http://h/a.mp4").1 = PyResult.ret false
    ∧ (download_videos_concurrently (fun _ => FetchSpec.mk false "text/html" [])
        ["http://h/a.mp4"] []).1 = PyResult.ret 0 :=
  ⟨claim10_skip_failure_conflation.1 _ [] "http://h/a.mp4" (by decide),
   claim10_skip_failure_conflation.2.1 _ [] "http://h/a.mp4"
     (by decide) (by decide),
   claim10_skip_failure_conflation.2.2 _ [] "http://h/a.mp4"
     (by decide) (by decide)⟩

end Vids

